import Mathlib

/-!
Verification of the finn multi-provider agentic tool-calling loop.

Shallow embedding of the AI-provider and tool layer:
* `src/ai/tools.ts` — tool registry, `executeTool`, the `switch_model` handler;
* `src/ai/openrouter.ts` — chat-completions content adapter and agentic loop
  (`generateOpenRouterResponse`);
* the native-messages provider (`generateClaudeResponse`) — content adapter and
  agentic loop;
* `src/ai/models.ts` — model-config lookups backed by the `model_config` table.

Conventions of the embedding:
* JavaScript exceptions are modelled explicitly (`HandlerOutcome`, `Except`);
  a `try`/`catch` becomes a `match` on the outcome.
* Network and database effects are modelled as oracles passed in (the list of
  provider responses a run will see, the model table contents, the catalog
  cache contents) plus an event trace recording the side-effecting calls the
  code makes, so that claims about which effects do or do not happen are
  statable.
* `JSON.stringify` of the small literal objects the tool layer produces is
  embedded by composing the exact strings JavaScript would produce
  (`jsStr`, `jsArrRaw`, `jsObjRaw`).
-/

namespace Finn

/-! ## JSON values (parsed tool arguments) and JSON string encoding -/

/-- A JSON value, as produced by `JSON.parse` for tool-call arguments. -/
inductive Json where
  | null
  | bool (b : Bool)
  | num (n : Int)
  | str (s : String)
  | arr (elems : List Json)
  | obj (fields : List (String × Json))

/-- Hexadecimal digit character, lowercase, as used by JSON string escapes. -/
def hexDigit (n : Nat) : Char :=
  if n < 10 then Char.ofNat (48 + n) else Char.ofNat (87 + n)

/-- Four-digit lowercase hex rendering of a code point, for `\uXXXX` escapes. -/
def hex4 (n : Nat) : String :=
  String.mk [hexDigit ((n / 4096) % 16), hexDigit ((n / 256) % 16),
             hexDigit ((n / 16) % 16), hexDigit (n % 16)]

/-- Escape one character exactly as JavaScript's `JSON.stringify` does. -/
def jsEscapeChar (c : Char) : String :=
  if c = '"' then "\\\""
  else if c = '\\' then "\\\\"
  else if c = '\n' then "\\n"
  else if c = '\r' then "\\r"
  else if c = '\t' then "\\t"
  else if c = '\x08' then "\\b"
  else if c = '\x0c' then "\\f"
  else if c.toNat < 32 then "\\u" ++ hex4 c.toNat
  else String.singleton c

/-- `JSON.stringify` of a string value (including the surrounding quotes). -/
def jsStr (s : String) : String :=
  "\"" ++ String.join (s.toList.map jsEscapeChar) ++ "\""

/-- `JSON.stringify` of an array whose elements are already encoded. -/
def jsArrRaw (elems : List String) : String :=
  "[" ++ String.intercalate "," elems ++ "]"

/-- `JSON.stringify` of an object whose field values are already encoded. -/
def jsObjRaw (fields : List (String × String)) : String :=
  "\x7b" ++ String.intercalate "," (fields.map fun p => jsStr p.1 ++ ":" ++ p.2) ++ "\x7d"

/-- `JSON.stringify (\x7b ok: false, error: msg \x7d)`, the error payload shape used
throughout `tools.ts` and the chat-completions loop. -/
def jsErrContent (msg : String) : String :=
  jsObjRaw [("ok", "false"), ("error", jsStr msg)]

/-! ## Data model: attachments and conversation messages -/

/-- Attachment kind (`attachment.type` in `services/attachments.ts`). -/
inductive AttachKind where
  | image
  | text
  | document
  | other
deriving DecidableEq

/-- One attachment of a conversation message.  `data` is `none` when the
TypeScript field is `undefined`. -/
structure Attachment where
  kind : AttachKind
  mimeType : String
  filename : String
  data : Option String
deriving DecidableEq

/-- JavaScript truthiness of the optional `attachment.data` string:
present and non-empty. -/
def dataTruthy : Option String → Bool
  | none => false
  | some s => s ≠ ""

/-- Message role.  The conversation store only produces these three. -/
inductive Role where
  | user
  | assistant
  | system
deriving DecidableEq

/-- The role string as it appears on the wire. -/
def Role.tag : Role → String
  | .user => "user"
  | .assistant => "assistant"
  | .system => "system"

/-- One turn of conversation history, as handed to the providers
(the fields of `services/conversations.ts`'s `Message` that the AI layer
reads). -/
structure Message where
  role : Role
  content : String
  attachments : Option (List Attachment)
deriving DecidableEq

/-! ## Content adapter, chat-completions family
(`attachmentsToOpenRouterContent` in `src/ai/openrouter.ts`) -/

/-- One element of the OpenAI-style content-part array. -/
inductive ORPart where
  | text (t : String)
  | imageUrl (url : String)
deriving DecidableEq

/-- The OpenAI-style message content: a bare string or a part array. -/
inductive ORContent where
  | str (s : String)
  | parts (ps : List ORPart)
deriving DecidableEq

/-- Image parts collected by the first `for` loop of
`attachmentsToOpenRouterContent`: each image attachment with truthy data
becomes a data-URI `image_url` part, in attachment order. -/
def orImageParts (atts : List Attachment) : List ORPart :=
  atts.filterMap fun a =>
    match a.kind, a.data with
    | .image, some d =>
      if d = "" then none
      else some (ORPart.imageUrl ("data:" ++ a.mimeType ++ ";base64," ++ d))
    | _, _ => none

/-- Text-file parts collected by the second `for` loop: each text attachment
with truthy data becomes a `[File: name]`-prefixed text part. -/
def orTextFileParts (atts : List Attachment) : List ORPart :=
  atts.filterMap fun a =>
    match a.kind, a.data with
    | .text, some d =>
      if d = "" then none
      else some (ORPart.text ("[File: " ++ a.filename ++ "]\n" ++ d))
    | _, _ => none

/-- `attachmentsToOpenRouterContent(text, attachments)`: no (or empty)
attachment list returns the bare text; otherwise images first, then text-file
parts, then the primary text — or, when the primary text is empty and some
part was produced, the synthesized minimal prompt. -/
def attachmentsToOpenRouterContent (text : String)
    (attachments : Option (List Attachment)) : ORContent :=
  match attachments with
  | none => .str text
  | some atts =>
    if atts.isEmpty then .str text
    else
      let base := orImageParts atts ++ orTextFileParts atts
      if text ≠ "" then .parts (base ++ [.text text])
      else if base ≠ [] then
        .parts (base ++ [.text "Please analyze the attached content."])
      else .parts base

/-! ## Content adapter, native-messages family
(`attachmentsToClaudeContent` in the native provider module) -/

/-- One content block sent to the native-messages provider. -/
inductive ClaudeBlockParam where
  | image (mediaType : String) (data : String)
  | text (t : String)
deriving DecidableEq

/-- Media-type normalization: recognized subtypes pass through, anything else
defaults to `image/jpeg`. -/
def claudeMediaType (mime : String) : String :=
  if mime = "image/png" then "image/png"
  else if mime = "image/gif" then "image/gif"
  else if mime = "image/webp" then "image/webp"
  else "image/jpeg"

/-- Image blocks collected by the first `for` loop of
`attachmentsToClaudeContent`. -/
def claudeImageBlocks (atts : List Attachment) : List ClaudeBlockParam :=
  atts.filterMap fun a =>
    match a.kind, a.data with
    | .image, some d =>
      if d = "" then none
      else some (ClaudeBlockParam.image (claudeMediaType a.mimeType) d)
    | _, _ => none

/-- Text-file blocks collected by the second `for` loop. -/
def claudeTextFileBlocks (atts : List Attachment) : List ClaudeBlockParam :=
  atts.filterMap fun a =>
    match a.kind, a.data with
    | .text, some d =>
      if d = "" then none
      else some (ClaudeBlockParam.text ("[File: " ++ a.filename ++ "]\n" ++ d))
    | _, _ => none

/-- `attachmentsToClaudeContent(text, attachments)`: bare string when there are
no attachments, otherwise a block array with the same ordering rule as the
chat-completions adapter. -/
def attachmentsToClaudeContent (text : String)
    (attachments : Option (List Attachment)) : Sum String (List ClaudeBlockParam) :=
  match attachments with
  | none => .inl text
  | some atts =>
    if atts.isEmpty then .inl text
    else
      let base := claudeImageBlocks atts ++ claudeTextFileBlocks atts
      if text ≠ "" then .inr (base ++ [.text text])
      else if base ≠ [] then
        .inr (base ++ [.text "Please analyze the attached content."])
      else .inr base

/-! ## Tool registry and `executeTool` (`src/ai/tools.ts`) -/

/-- A tool result: stringified content plus the optional error flag
(`isError?: boolean`). -/
structure ToolResult where
  content : String
  isError : Option Bool
deriving DecidableEq

/-- A thrown JavaScript value: an `Error` with a message, or anything else. -/
inductive JsThrown where
  | err (msg : String)
  | other
deriving DecidableEq

/-- `error instanceof Error ? error.message : "Unknown error"` — the message
`executeTool`'s `catch` extracts from a thrown value. -/
def JsThrown.message : JsThrown → String
  | .err m => m
  | .other => "Unknown error"

/-- What one invocation of a tool handler does: return a result or throw. -/
inductive HandlerOutcome where
  | ok (r : ToolResult)
  | exn (e : JsThrown)
deriving DecidableEq

/-- `handlers name input = .ok r` for some `r`. -/
def HandlerOutcome.isOk : HandlerOutcome → Bool
  | .ok _ => true
  | .exn _ => false

/-- The names of the five registered tools, in `TOOL_DEFINITIONS` order.
`TOOL_BY_NAME` is keyed by exactly these. -/
def TOOL_NAMES : List String :=
  ["list_models", "switch_model", "reset_conversation",
   "openrouter_refresh_models", "openrouter_search_models"]

/-- `executeTool(name, input, context)` with the behavior of the registered
handlers abstracted as the oracle `handlers` (what each handler would do on
this invocation) and the context reduced to whether `onToolResult` is set.

Returns the `ToolResult` the caller receives paired with whether the
`onToolResult` callback fired during the call.  Mirror of the source:
unknown name short-circuits to an error result (no callback); a handler
result is returned after invoking the callback; a thrown value is caught and
converted to an error result (the `catch` block invokes no callback). -/
def executeTool (handlers : String → Json → HandlerOutcome)
    (name : String) (input : Json) (hasCallback : Bool) : ToolResult × Bool :=
  if TOOL_NAMES.contains name then
    match handlers name input with
    | .ok r => (r, hasCallback)
    | .exn e => (⟨jsErrContent e.message, some true⟩, false)
  else
    (⟨jsErrContent ("Unknown tool: " ++ name), some true⟩, false)

/-! ## Chat-completions provider loop (`generateOpenRouterResponse`,
`src/ai/openrouter.ts` lines 101-208) -/

/-- A tool call as reported in a chat-completions response
(`OpenRouterToolCall`): provider-assigned call id, function name, and the raw
arguments string. -/
structure ORToolCall where
  id : String
  name : String
  arguments : String
deriving DecidableEq

/-- Reported usage of one inference call (`usage` may be absent on the wire,
hence wrapped in `Option` at the response). -/
structure ORUsage where
  promptTokens : Nat
  completionTokens : Nat
deriving DecidableEq

/-- `choices[0].message`: optional text content (string or `null` folded to
`none`/`some`) and the optional tool-call list. -/
structure ORChoiceMsg where
  content : Option String
  toolCalls : Option (List ORToolCall)
deriving DecidableEq

/-- One parsed chat-completions response, reduced to the fields the loop
reads: `data.model`, `data.choices[0]?.message`, `data.usage?`. -/
structure ORResponse where
  model : String
  message : Option ORChoiceMsg
  usage : Option ORUsage
deriving DecidableEq

/-- `message?.tool_calls ?? []`. -/
def ORResponse.toolCallList (r : ORResponse) : List ORToolCall :=
  (r.message.bind (·.toolCalls)).getD []

/-- `data.usage?.prompt_tokens || 0`. -/
def ORResponse.reportedIn (r : ORResponse) : Nat :=
  (r.usage.map (·.promptTokens)).getD 0

/-- `data.usage?.completion_tokens || 0`. -/
def ORResponse.reportedOut (r : ORResponse) : Nat :=
  (r.usage.map (·.completionTokens)).getD 0

/-- One record pushed onto `openRouterMessages`. -/
inductive ORMessage where
  | sys (content : String)
  | history (role : Role) (content : ORContent)
  | assistant (content : Option String) (toolCalls : List ORToolCall)
  | toolMsg (toolCallId : String) (content : String)
deriving DecidableEq

/-- The role string of a pushed chat-completions message record. -/
def ORMessage.roleTag : ORMessage → String
  | .sys _ => "system"
  | .history r _ => r.tag
  | .assistant _ _ => "assistant"
  | .toolMsg _ _ => "tool"

/-- The initial `openRouterMessages` array: the composed system message
followed by the converted conversation history, one entry per history message,
every role forwarded unchanged. -/
def orInitialMessages (system : String) (messages : List Message) : List ORMessage :=
  .sys system :: messages.map fun m =>
    .history m.role (attachmentsToOpenRouterContent m.content m.attachments)

/-- Trace events of one loop run: an inference (`fetch`) call, or a call into
`executeTool` for a given call id. -/
inductive LoopEvent where
  | fetch
  | execTool (callId : String) (name : String) (args : Json)

/-- Does this event record `executeTool` being reached for call id `id`? -/
def eventUsesCallId (id : String) : LoopEvent → Bool
  | .execTool cid _ _ => cid == id
  | .fetch => false

/-- `call.function.arguments ? JSON.parse(call.function.arguments) : \x7b\x7d`:
an empty (falsy) arguments string silently becomes the empty object, otherwise
the external `JSON.parse` (the oracle `parse`) runs and may throw. -/
def orParsedArgs (parse : String → Except String Json) (s : String) :
    Except String Json :=
  if s = "" then .ok (.obj []) else parse s

/-- The per-batch tool-call processing (`for (const call of toolCalls)`,
lines 177-199): a parse failure appends an error tool message for that call id
and `continue`s; otherwise `executeTool`'s result content is appended under the
call id.  Returns the extended message list and the trace of `executeTool`
invocations made. -/
def processORToolCalls (parse : String → Except String Json)
    (exec : String → Json → ToolResult) :
    List ORToolCall → List ORMessage → List ORMessage × List LoopEvent
  | [], msgs => (msgs, [])
  | c :: rest, msgs =>
    match orParsedArgs parse c.arguments with
    | .error e =>
      processORToolCalls parse exec rest (msgs ++ [.toolMsg c.id (jsErrContent e)])
    | .ok args =>
      let r := exec c.name args
      let out := processORToolCalls parse exec rest (msgs ++ [.toolMsg c.id r.content])
      (out.1, .execTool c.id c.name args :: out.2)

/-- Uniform output of a loop run: the returned `AIResponse`, the final message
list, the event trace, the number of inference calls consumed from the script,
and the number of tool-execution rounds performed. -/
structure AIResponse where
  content : String
  model : String
  inputTokens : Nat
  outputTokens : Nat
deriving DecidableEq

structure ORLoopOut where
  resp : AIResponse
  msgs : List ORMessage
  trace : List LoopEvent
  fetches : Nat
  rounds : Nat

/-- The `for (let step = 0; step < 3; step++)` loop of
`generateOpenRouterResponse`.  `responses` scripts what successive `fetch`
calls return (an exhausted script means the run would still be waiting on the
network, modelled as `none`); `exec` abstracts `executeTool` under the ambient
tool context; `hasCtx` is whether a `ToolContext` was supplied.  Token totals
accumulate before the no-tool-calls check, exactly as in the source; fuel 0 is
the loop exit, returning the fixed fallback content with the requested
`modelId` echoed. -/
def orLoop (parse : String → Except String Json) (exec : String → Json → ToolResult)
    (hasCtx : Bool) (modelId : String) :
    Nat → List ORResponse → List ORMessage → Nat → Nat → Option ORLoopOut
  | 0, _, msgs, inT, outT =>
    some ⟨⟨"Sorry, I ran into a tool loop while responding.", modelId, inT, outT⟩,
          msgs, [], 0, 0⟩
  | _ + 1, [], _, _, _ => none
  | fuel + 1, r :: rest, msgs, inT, outT =>
    let toolCalls := r.toolCallList
    let inT := inT + r.reportedIn
    let outT := outT + r.reportedOut
    if toolCalls.isEmpty || !hasCtx then
      some ⟨⟨(r.message.bind (·.content)).getD "", r.model, inT, outT⟩,
            msgs, [.fetch], 1, 0⟩
    else
      let msgs := msgs ++ [.assistant (r.message.bind (·.content)) toolCalls]
      let step := processORToolCalls parse exec toolCalls msgs
      match orLoop parse exec hasCtx modelId fuel rest step.1 inT outT with
      | none => none
      | some out =>
        some ⟨out.resp, out.msgs, .fetch :: step.2 ++ out.trace,
              out.fetches + 1, out.rounds + 1⟩

/-- `generateOpenRouterResponse(modelId, messages, system, toolContext)`
after the request preamble: runs the 3-iteration loop over the initial
message list with zeroed token totals. -/
def generateOpenRouterResponseRun (parse : String → Except String Json)
    (exec : String → Json → ToolResult) (hasCtx : Bool) (modelId : String)
    (system : String) (messages : List Message) (responses : List ORResponse) :
    Option ORLoopOut :=
  orLoop parse exec hasCtx modelId 3 responses (orInitialMessages system messages) 0 0

/-! ## Native-messages provider loop (`generateClaudeResponse`) -/

/-- One block of a native-messages response's `content` array.  `extra`
stands for any block type other than `text` and `tool_use` (the two the loop
filters for). -/
inductive ClaudeBlock where
  | text (t : String)
  | toolUse (id : String) (name : String) (input : Json)
  | extra

/-- Reported usage of one native-messages inference call. -/
structure ClaudeUsage where
  inputTokens : Nat
  outputTokens : Nat
deriving DecidableEq

/-- One native-messages response, reduced to the fields the loop reads. -/
structure ClaudeResponse where
  model : String
  content : List ClaudeBlock
  usage : ClaudeUsage

/-- A `tool_use` block's payload. -/
structure ClaudeToolUse where
  id : String
  name : String
  input : Json

/-- `response.content.filter(block => block.type === "tool_use")`. -/
def claudeToolUses (blocks : List ClaudeBlock) : List ClaudeToolUse :=
  blocks.filterMap fun b =>
    match b with
    | .toolUse i n inp => some ⟨i, n, inp⟩
    | _ => none

/-- `content.filter(type === "text").map(b => b.text).join("")`. -/
def claudeTextOf (blocks : List ClaudeBlock) : String :=
  String.join (blocks.filterMap fun b =>
    match b with
    | .text t => some t
    | _ => none)

/-- A `tool_result` block appended after executing one tool call. -/
structure ToolResultBlock where
  toolUseId : String
  content : String
  isError : Option Bool
deriving DecidableEq

/-- One record of the `anthropicMessages` array. -/
inductive CMessage where
  | history (role : Role) (content : Sum String (List ClaudeBlockParam))
  | assistantEcho (content : List ClaudeBlock)
  | toolResults (results : List ToolResultBlock)

/-- The role string of a native-messages record: history entries keep their
role, the echo turn is `assistant`, the results turn is `user`. -/
def CMessage.roleTag : CMessage → String
  | .history r _ => r.tag
  | .assistantEcho _ => "assistant"
  | .toolResults _ => "user"

/-- The initial `anthropicMessages` array: history messages with role
`system` filtered out (order preserved), the rest converted. -/
def anthropicMessages (messages : List Message) : List CMessage :=
  (messages.filter fun m => !(m.role == .system)).map fun m =>
    .history m.role (attachmentsToClaudeContent m.content m.attachments)

structure CLoopOut where
  resp : AIResponse
  msgs : List CMessage
  trace : List LoopEvent
  fetches : Nat
  rounds : Nat

/-- The `for (let step = 0; step < 3; step++)` loop of
`generateClaudeResponse`, entered with the already-fetched first `response`
and its usage already accumulated.  Each round executes the pending tool
uses, appends the assistant echo and the tool-result turn, and fetches the
next scripted response (accumulating its usage) before re-testing; fuel 0 is
the loop exit, returning the joined text of the last response with its
reported model.  `fetches` counts in-loop inference calls only. -/
def claudeLoop (exec : String → Json → ToolResult) (hasCtx : Bool) :
    Nat → ClaudeResponse → List ClaudeResponse → List CMessage → Nat → Nat →
    Option CLoopOut
  | 0, response, _, msgs, inT, outT =>
    some ⟨⟨claudeTextOf response.content, response.model, inT, outT⟩,
          msgs, [], 0, 0⟩
  | fuel + 1, response, rest, msgs, inT, outT =>
    let toolUses := claudeToolUses response.content
    if toolUses.isEmpty || !hasCtx then
      some ⟨⟨claudeTextOf response.content, response.model, inT, outT⟩,
            msgs, [], 0, 0⟩
    else
      let results := toolUses.map fun u =>
        let r := exec u.name u.input
        ToolResultBlock.mk u.id r.content r.isError
      let evs := toolUses.map fun u => LoopEvent.execTool u.id u.name u.input
      let msgs := msgs ++ [.assistantEcho response.content, .toolResults results]
      match rest with
      | [] => none
      | r2 :: rest2 =>
        match claudeLoop exec hasCtx fuel r2 rest2 msgs
            (inT + r2.usage.inputTokens) (outT + r2.usage.outputTokens) with
        | none => none
        | some out =>
          some ⟨out.resp, out.msgs, evs ++ .fetch :: out.trace,
                out.fetches + 1, out.rounds + 1⟩

/-- `generateClaudeResponse(modelId, messages, system, toolContext)` after
message-list construction: the first scripted response is fetched and its
usage recorded, then the bounded loop runs. -/
def generateClaudeResponseRun (exec : String → Json → ToolResult) (hasCtx : Bool)
    (messages : List Message) (responses : List ClaudeResponse) :
    Option CLoopOut :=
  match responses with
  | [] => none
  | r :: rest =>
    match claudeLoop exec hasCtx 3 r rest (anthropicMessages messages)
        r.usage.inputTokens r.usage.outputTokens with
    | none => none
    | some out =>
      some ⟨out.resp, out.msgs, .fetch :: out.trace, out.fetches + 1, out.rounds⟩

/-! ## Model configuration (`src/ai/models.ts` over the `model_config` table) -/

inductive Provider where
  | claude
  | openrouter
deriving DecidableEq

def Provider.tag : Provider → String
  | .claude => "claude"
  | .openrouter => "openrouter"

structure ModelConfig where
  id : String
  provider : Provider
  modelId : String
  displayName : String
  enabled : Bool
deriving DecidableEq

/-- Lexicographic order on code-point sequences: for the ASCII identifiers in
`model_config` this agrees with SQLite's BINARY (memcmp of UTF-8) order. -/
def charsLt : List Char → List Char → Bool
  | [], [] => false
  | [], _ :: _ => true
  | _ :: _, [] => false
  | a :: as, b :: bs =>
    if a.toNat < b.toNat then true
    else if b.toNat < a.toNat then false
    else charsLt as bs

def strLtB (a b : String) : Bool := charsLt a.toList b.toList

def strLeB (a b : String) : Bool := !(strLtB b a)

/-- The `ORDER BY provider, id` comparison (SQLite TEXT order on the two
provider tags agrees with `claude < openrouter`). -/
def modelLE (a b : ModelConfig) : Bool :=
  strLtB a.provider.tag b.provider.tag ||
    (a.provider.tag == b.provider.tag && strLeB a.id b.id)

def insertModelSorted (m : ModelConfig) : List ModelConfig → List ModelConfig
  | [] => [m]
  | x :: xs => if modelLE m x then m :: x :: xs else x :: insertModelSorted m xs

/-- `getAvailableModels()`: every row of `model_config`, ordered by
`provider, id`.  The table contents are the `db` parameter. -/
def getAvailableModels (db : List ModelConfig) : List ModelConfig :=
  db.foldr insertModelSorted []

/-- `getModelByAlias(alias)`: the row `WHERE id = ?` (BINARY collation, so the
comparison is exact, case-sensitive). -/
def getModelByAlias (db : List ModelConfig) (aliasId : String) : Option ModelConfig :=
  db.find? fun m => m.id == aliasId

/-- `getModelByProviderId(modelId)`: the row `WHERE model_id = ?`. -/
def getModelByProviderId (db : List ModelConfig) (modelId : String) :
    Option ModelConfig :=
  db.find? fun m => m.modelId == modelId

/-! ## The `switch_model` tool handler (`src/ai/tools.ts` lines 108-212) -/

/-- ASCII case folding of one character (agrees with JavaScript
`toLowerCase` on the ASCII range the model identifiers use). -/
def jsCharLower (c : Char) : Char :=
  if 'A' ≤ c ∧ c ≤ 'Z' then Char.ofNat (c.toNat + 32) else c

/-- `s.toLowerCase()`. -/
def jsToLower (s : String) : String :=
  String.mk (s.toList.map jsCharLower)

/-- Characters JavaScript's `String.prototype.trim` strips: ASCII whitespace
plus NBSP, the Unicode space separators, the line and paragraph separators,
and the BOM. -/
def jsTrimWs (c : Char) : Bool :=
  c = ' ' ∨ c = '\t' ∨ c = '\n' ∨ c = '\r' ∨ c = '\x0b' ∨ c = '\x0c' ∨
    c.toNat = 160 ∨ c.toNat = 65279 ∨ (8192 ≤ c.toNat ∧ c.toNat ≤ 8202) ∨
    c.toNat = 8232 ∨ c.toNat = 8233 ∨ c.toNat = 8239 ∨ c.toNat = 8287 ∨
    c.toNat = 12288 ∨ c.toNat = 5760

/-- `s.trim()`. -/
def jsTrim (s : String) : String :=
  String.mk (((s.toList.dropWhile jsTrimWs).reverse.dropWhile jsTrimWs).reverse)

/-- `value.toLowerCase().replace(/[^a-z0-9]+/g, "")`. -/
def jsNormalizeKey (s : String) : String :=
  String.mk ((jsToLower s).toList.filter fun c =>
    ('a' ≤ c ∧ c ≤ 'z') ∨ ('0' ≤ c ∧ c ≤ '9'))

/-- Read one string-typed field off the raw input object
(`typeof data.k === "string" ? data.k : undefined`). -/
def jsStrField (input : Json) (k : String) : Option String :=
  match input with
  | .obj fields =>
    match fields.find? fun p => p.1 == k with
    | some (_, .str s) => some s
    | _ => none
  | _ => none

/-- JavaScript `a || b` on string-or-undefined operands: an empty string is
falsy and falls through. -/
def jsOrStr : Option String → Option String → Option String
  | some s, b => if s == "" then b else some s
  | none, b => b

/-- The tolerant field-name chain of the `switch_model` handler: a bare
string input, else `model`, `model_id`, `modelId`, `model_name`, `modelName`,
`id`, `name`, joined by JavaScript `||`. -/
def switchModelRequestedId (input : Json) : Option String :=
  jsOrStr (match input with | .str s => some s | _ => none)
    (jsOrStr (jsStrField input "model")
      (jsOrStr (jsStrField input "model_id")
        (jsOrStr (jsStrField input "modelId")
          (jsOrStr (jsStrField input "model_name")
            (jsOrStr (jsStrField input "modelName")
              (jsOrStr (jsStrField input "id")
                (jsStrField input "name")))))))

/-- One entry of the OpenRouter catalog cache (`OpenRouterModel`): an id plus
an optional `name` (`none` models a `name` that is not a string). -/
structure ORCatalogModel where
  id : String
  name : Option String
deriving DecidableEq

/-- The catalog snapshot (`OpenRouterModelCache`). -/
structure ORModelCache where
  fetchedAt : String
  models : List ORCatalogModel
deriving DecidableEq

/-- The acting user as seen through the tool context. -/
structure User where
  id : String
  preferredModel : String
deriving DecidableEq

/-- Side effects the `switch_model` handler can perform, in order. -/
inductive SwitchEvent where
  | catalogGet
  | catalogRefresh
  | createdModel (m : ModelConfig)
  | updatedUserModel (userId : String) (modelId : String)
deriving DecidableEq

/-- Result of one `switch_model` invocation: the tool result, the model table
and user after the call, and the trace of side-effecting collaborator calls. -/
structure SwitchOutcome where
  result : ToolResult
  db : List ModelConfig
  user : User
  events : List SwitchEvent
deriving DecidableEq

/-- The handler tail from `if (!model)` on (lines 178-212): not found → error
listing every known alias id; disabled → error naming the display name;
otherwise persist the preference, mutate `context.user.preferredModel`, and
return the new model info. -/
def finishSwitch (models : List ModelConfig) (normalized : String)
    (db : List ModelConfig) (user : User) (events : List SwitchEvent) :
    Option ModelConfig → SwitchOutcome
  | none =>
    ⟨⟨jsObjRaw [("ok", "false"),
               ("error", jsStr ("Model '" ++ normalized ++ "' not found")),
               ("available_models", jsArrRaw (models.map fun m => jsStr m.id))],
      some true⟩, db, user, events⟩
  | some model =>
    if !model.enabled then
      ⟨⟨jsObjRaw [("ok", "false"),
                 ("error", jsStr ("Model '" ++ model.displayName ++ "' is disabled"))],
        some true⟩, db, user, events⟩
    else
      ⟨⟨jsObjRaw [("ok", "true"),
                 ("model", jsObjRaw [("id", jsStr model.id),
                                     ("display_name", jsStr model.displayName),
                                     ("provider", jsStr model.provider.tag)])],
        none⟩,
        db, { user with preferredModel := model.id },
        events ++ [.updatedUserModel user.id model.id]⟩

/-- Modelled from the spec: `createModel` (imported by `tools.ts` from
`./models` but absent from the sources) — "auto-registration of a new alias",
i.e. the new `ModelConfig` row is inserted into the `model_config` table and
returned. -/
def createModel (db : List ModelConfig) (m : ModelConfig) :
    List ModelConfig × ModelConfig :=
  (db ++ [m], m)

/-- The catalog phase (lines 137-176), entered only when no local resolution
succeeded: look in the cached snapshot (a thrown `getOpenRouterModels` is the
`none` oracle value and is swallowed), on a miss try a forced refresh
(likewise), and auto-register a hit as a new enabled openrouter model. -/
def switchCatalogPhase (cacheGet : Option ORModelCache)
    (cacheRefresh : Option ORModelCache) (normalized : String)
    (db : List ModelConfig) : Option ModelConfig × List ModelConfig × List SwitchEvent :=
  let lower := jsToLower normalized
  let fromCache : Option ORCatalogModel :=
    match cacheGet with
    | none => none
    | some cache => cache.models.find? fun e => jsToLower e.id == lower
  let found : Option ORCatalogModel × List SwitchEvent :=
    match fromCache with
    | some e => (some e, [.catalogGet])
    | none =>
      match cacheRefresh with
      | none => (none, [.catalogGet, .catalogRefresh])
      | some cache =>
        (cache.models.find? fun e => jsToLower e.id == lower,
         [.catalogGet, .catalogRefresh])
  match found.1 with
  | none => (none, db, found.2)
  | some e =>
    let displayName := e.name.getD e.id
    let created := createModel db ⟨e.id, .openrouter, e.id, displayName, true⟩
    (some created.2, created.1, found.2 ++ [.createdModel created.2])

/-- The normalized-match fallback (lines 128-135): first an alias whose
normalized form matches, then a display name, over the `models` listing. -/
def normalizedResolve (models : List ModelConfig) (normalized : String) :
    Option ModelConfig :=
  let key := jsNormalizeKey normalized
  match models.find? fun item => jsNormalizeKey item.id == key with
  | some m => some m
  | none => models.find? fun item => jsNormalizeKey item.displayName == key

/-- The full `switch_model` handler over the model table `db`, the acting
`user`, and the two catalog oracles. -/
def switchModelHandler (cacheGet : Option ORModelCache)
    (cacheRefresh : Option ORModelCache) (input : Json)
    (db : List ModelConfig) (user : User) : SwitchOutcome :=
  match (switchModelRequestedId input).map jsTrim with
  | none => ⟨⟨"Missing required 'model' field.", some true⟩, db, user, []⟩
  | some normalized =>
    if normalized = "" then
      ⟨⟨"Missing required 'model' field.", some true⟩, db, user, []⟩
    else
      let models := getAvailableModels db
      let model0 :=
        match getModelByAlias db normalized with
        | some m => some m
        | none => getModelByProviderId db normalized
      let model1 :=
        match model0 with
        | some m => some m
        | none => normalizedResolve models normalized
      match model1 with
      | some m => finishSwitch models normalized db user [] (some m)
      | none =>
        let phase := switchCatalogPhase cacheGet cacheRefresh normalized db
        finishSwitch models normalized phase.2.1 user phase.2.2 phase.1

/-- Does a `JSON.parse` outcome represent a thrown parse failure? -/
def exceptIsError : Except String Json → Bool
  | .error _ => true
  | .ok _ => false

/-- Placeholder response used as the `getD` default when indexing a response
script at a position the hypotheses guarantee to exist. -/
def cDefaultResp : ClaudeResponse := ⟨"", [], ⟨0, 0⟩⟩

/-! ### Concrete scenarios used by witnesses -/

/-- Chat-completions script of the repository test suite: one tool-call
response, then a plain-text response. -/
def wOrScript : List ORResponse :=
  [⟨"openrouter/test", some ⟨none, some [⟨"call_1", "openrouter_search_models", ""⟩]⟩,
    some ⟨10, 5⟩⟩,
   ⟨"openrouter/test", some ⟨some "Done.", none⟩, some ⟨8, 6⟩⟩]

/-- The run output on `wOrScript` (system prompt `"sys"`, empty history, tool
oracle returning `"res"`). -/
def wOrOut : ORLoopOut :=
  ⟨⟨"Done.", "openrouter/test", 18, 11⟩,
   [.sys "sys", .assistant none [⟨"call_1", "openrouter_search_models", ""⟩],
    .toolMsg "call_1" "res"],
   [.fetch, .execTool "call_1" "openrouter_search_models" (.obj []), .fetch], 2, 1⟩

/-- Native-messages script of the repository test suite: one tool-use
response, then a plain-text response. -/
def wCScript : List ClaudeResponse :=
  [⟨"claude-test", [.toolUse "toolu_1" "list_models" (.obj [])], ⟨10, 5⟩⟩,
   ⟨"claude-test", [.text "Done."], ⟨12, 6⟩⟩]

/-- The run output on `wCScript` (empty history, tool oracle returning
`"res"`). -/
def wCOut : CLoopOut :=
  ⟨⟨"Done.", "claude-test", 22, 11⟩,
   [.assistantEcho [.toolUse "toolu_1" "list_models" (.obj [])],
    .toolResults [⟨"toolu_1", "res", none⟩]],
   [.fetch, .execTool "toolu_1" "list_models" (.obj []), .fetch], 2, 1⟩

/-- Chat-completions script in which every response requests a tool call. -/
def wOrExhaustScript : List ORResponse :=
  [⟨"p", some ⟨none, some [⟨"c1", "list_models", ""⟩]⟩, some ⟨1, 2⟩⟩,
   ⟨"p", some ⟨none, some [⟨"c2", "list_models", ""⟩]⟩, some ⟨1, 2⟩⟩,
   ⟨"p", some ⟨none, some [⟨"c3", "list_models", ""⟩]⟩, some ⟨1, 2⟩⟩]

/-- Native-messages script whose first three responses request a tool use and
whose fourth is plain text. -/
def wCExhaustScript : List ClaudeResponse :=
  [⟨"m", [.toolUse "t1" "list_models" (.obj [])], ⟨1, 1⟩⟩,
   ⟨"m", [.toolUse "t2" "list_models" (.obj [])], ⟨1, 1⟩⟩,
   ⟨"m", [.toolUse "t3" "list_models" (.obj [])], ⟨1, 1⟩⟩,
   ⟨"m", [.text "done"], ⟨1, 1⟩⟩]

/-! ## Theorems -/

/-- C3: `executeTool(name, input, context)` never throws: in every case a
`ToolResult` is returned (the embedding is a total function into
`ToolResult × Bool`, with both handler outcomes — return and throw — covered).
An unregistered name yields the error-flagged result naming the unknown tool;
a throwing handler is caught and yields an error-flagged result carrying the
exception message; a returning handler's result is passed through. -/
theorem executeTool_never_throws (handlers : String → Json → HandlerOutcome)
    (name : String) (input : Json) (cb : Bool) :
    (TOOL_NAMES.contains name = false →
      executeTool handlers name input cb
        = (⟨jsErrContent ("Unknown tool: " ++ name), some true⟩, false)) ∧
    (∀ e, TOOL_NAMES.contains name = true → handlers name input = .exn e →
      executeTool handlers name input cb
        = (⟨jsErrContent e.message, some true⟩, false)) ∧
    (∀ r, TOOL_NAMES.contains name = true → handlers name input = .ok r →
      executeTool handlers name input cb = (r, cb)) := by
  refine ⟨fun h => ?_, fun e h1 h2 => ?_, fun r h1 h2 => ?_⟩
  · have h' : name ∉ TOOL_NAMES := by simpa using h
    simp [executeTool, h']
  · have h' : name ∈ TOOL_NAMES := by simpa using h1
    simp [executeTool, h', h2]
  · have h' : name ∈ TOOL_NAMES := by simpa using h1
    simp [executeTool, h', h2]

/-- C3 witness: the three outcomes at concrete inputs — an unknown tool name,
a handler that throws `Error("boom")` on `list_models`, and a handler that
returns a result. -/
theorem executeTool_never_throws_witness :
    (executeTool (fun _ _ => .ok ⟨"x", none⟩) "nonexistent_tool" (.obj []) true
      = (⟨jsErrContent "Unknown tool: nonexistent_tool", some true⟩, false)) ∧
    (executeTool (fun _ _ => .exn (.err "boom")) "list_models" (.obj []) true
      = (⟨jsErrContent "boom", some true⟩, false)) ∧
    (executeTool (fun _ _ => .ok ⟨"x", none⟩) "list_models" (.obj []) true
      = (⟨"x", none⟩, true)) :=
  ⟨(executeTool_never_throws (fun _ _ => .ok ⟨"x", none⟩) "nonexistent_tool"
      (.obj []) true).1 (by decide),
   (executeTool_never_throws (fun _ _ => .exn (.err "boom")) "list_models"
      (.obj []) true).2.1 (.err "boom") (by decide) rfl,
   (executeTool_never_throws (fun _ _ => .ok ⟨"x", none⟩) "list_models"
      (.obj []) true).2.2 ⟨"x", none⟩ (by decide) rfl⟩

/-- C4 counterexample: with `onToolResult` set (`hasCallback = true`) and an
unknown tool name, `executeTool` returns without invoking the callback — the
claim that the callback fires after *every* outcome (handler success, handler
exception, or unknown tool) is false; only the success path fires it. -/
theorem executeTool_callback_unknown_cex :
    (executeTool (fun _ _ => .ok ⟨"", none⟩) "nonexistent_tool" (.obj []) true).2
      = false := by decide

/-- C4 amended: the `onToolResult` callback fires exactly when the callback is
set, the name is registered, and the handler returns without throwing; it then
fires synchronously inside `executeTool`, before the result is returned to the
driver (and hence before the driver appends the result to history).  It does
not fire for the unknown-tool or handler-exception outcomes. -/
theorem executeTool_callback_iff_success (handlers : String → Json → HandlerOutcome)
    (name : String) (input : Json) (cb : Bool) :
    (executeTool handlers name input cb).2
      = (cb && TOOL_NAMES.contains name && (handlers name input).isOk) := by
  cases h : TOOL_NAMES.contains name
  · have h' : name ∉ TOOL_NAMES := by simpa using h
    simp [executeTool, h', h]
  · have h' : name ∈ TOOL_NAMES := by simpa using h
    cases hh : handlers name input <;>
      simp [executeTool, h', h, hh, HandlerOutcome.isOk]

/-- C8 counterexample: a message with empty primary text and a non-empty
attachment list can still convert to an empty content array with no
synthesized instruction block — a `document` attachment (no inline data)
produces no content part, so both adapters return `[]` and the provider does
receive an empty turn. -/
theorem adapters_empty_despite_attachment_cex :
    attachmentsToOpenRouterContent ""
        (some [⟨.document, "application/pdf", "f.pdf", none⟩]) = .parts []
    ∧ attachmentsToClaudeContent ""
        (some [⟨.document, "application/pdf", "f.pdf", none⟩]) = .inr [] := by
  constructor <;> rfl

/-- C8 amended: for both provider families, when the primary text is empty and
the attachment list yields at least one content block (an image attachment or
a text attachment with truthy data), the converted content ends with the
synthesized instruction text block `"Please analyze the attached content."`. -/
theorem adapters_synthesize_final_prompt (atts : List Attachment)
    (h : ∃ a ∈ atts, (a.kind = .image ∨ a.kind = .text) ∧ dataTruthy a.data) :
    attachmentsToOpenRouterContent "" (some atts)
      = .parts (orImageParts atts ++ orTextFileParts atts
          ++ [.text "Please analyze the attached content."])
    ∧ attachmentsToClaudeContent "" (some atts)
      = .inr (claudeImageBlocks atts ++ claudeTextFileBlocks atts
          ++ [.text "Please analyze the attached content."]) := by
  obtain ⟨a, ha, hk, hd⟩ := h
  obtain ⟨d, hdat, hdne⟩ : ∃ d, a.data = some d ∧ d ≠ "" := by
    cases hdat : a.data with
    | none => rw [hdat] at hd; simp [dataTruthy] at hd
    | some d =>
      rw [hdat] at hd; simp only [dataTruthy, ne_eq, decide_eq_true_eq] at hd
      exact ⟨d, rfl, hd⟩
  have hne : atts.isEmpty = false := by
    cases atts with
    | nil => exact absurd ha (List.not_mem_nil a)
    | cons x xs => rfl
  have horbase : orImageParts atts ++ orTextFileParts atts ≠ [] := by
    rcases hk with hk | hk
    · have : ORPart.imageUrl ("data:" ++ a.mimeType ++ ";base64," ++ d)
          ∈ orImageParts atts := by
        refine List.mem_filterMap.mpr ⟨a, ha, ?_⟩
        rw [hk, hdat]; simp [hdne]
      intro hcon
      rcases List.append_eq_nil.mp hcon with ⟨h1, _⟩
      rw [h1] at this; exact List.not_mem_nil _ this
    · have : ORPart.text ("[File: " ++ a.filename ++ "]\n" ++ d)
          ∈ orTextFileParts atts := by
        refine List.mem_filterMap.mpr ⟨a, ha, ?_⟩
        rw [hk, hdat]; simp [hdne]
      intro hcon
      rcases List.append_eq_nil.mp hcon with ⟨_, h2⟩
      rw [h2] at this; exact List.not_mem_nil _ this
  have hclbase : claudeImageBlocks atts ++ claudeTextFileBlocks atts ≠ [] := by
    rcases hk with hk | hk
    · have : ClaudeBlockParam.image (claudeMediaType a.mimeType) d
          ∈ claudeImageBlocks atts := by
        refine List.mem_filterMap.mpr ⟨a, ha, ?_⟩
        rw [hk, hdat]; simp [hdne]
      intro hcon
      rcases List.append_eq_nil.mp hcon with ⟨h1, _⟩
      rw [h1] at this; exact List.not_mem_nil _ this
    · have : ClaudeBlockParam.text ("[File: " ++ a.filename ++ "]\n" ++ d)
          ∈ claudeTextFileBlocks atts := by
        refine List.mem_filterMap.mpr ⟨a, ha, ?_⟩
        rw [hk, hdat]; simp [hdne]
      intro hcon
      rcases List.append_eq_nil.mp hcon with ⟨_, h2⟩
      rw [h2] at this; exact List.not_mem_nil _ this
  constructor
  · simp [attachmentsToOpenRouterContent, hne, horbase]
  · simp [attachmentsToClaudeContent, hne, hclbase]

/-- C8 amended witness: one image attachment with inline data, empty primary
text — the converted content of both adapters ends with the synthesized
instruction block. -/
theorem adapters_synthesize_final_prompt_witness :
    attachmentsToOpenRouterContent ""
        (some [⟨.image, "image/png", "a.png", some "QUJD"⟩])
      = .parts (orImageParts [⟨.image, "image/png", "a.png", some "QUJD"⟩]
          ++ orTextFileParts [⟨.image, "image/png", "a.png", some "QUJD"⟩]
          ++ [.text "Please analyze the attached content."])
    ∧ attachmentsToClaudeContent ""
        (some [⟨.image, "image/png", "a.png", some "QUJD"⟩])
      = .inr (claudeImageBlocks [⟨.image, "image/png", "a.png", some "QUJD"⟩]
          ++ claudeTextFileBlocks [⟨.image, "image/png", "a.png", some "QUJD"⟩]
          ++ [.text "Please analyze the attached content."]) :=
  adapters_synthesize_final_prompt [⟨.image, "image/png", "a.png", some "QUJD"⟩]
    ⟨⟨.image, "image/png", "a.png", some "QUJD"⟩, by decide, by decide⟩

/-- C9: the native-messages builder sends exactly the order-preserving
sub-list of history messages whose role is not `system` (the role sequence of
its request list is the history's role sequence with `system` filtered out),
while the chat-completions builder forwards every history message unchanged
after its own prepended system message (its role sequence is `"system"`
followed by all history roles).  Consequently a history containing a
system-role message yields request lists of different history-derived length
for the two provider families. -/
theorem provider_history_role_divergence (sys : String) (ms : List Message) :
    ((anthropicMessages ms).map CMessage.roleTag
      = (((ms.map (fun m => m.role)).filter (fun r => !(r == Role.system))).map
          Role.tag)) ∧
    ((orInitialMessages sys ms).map ORMessage.roleTag
      = "system" :: ms.map (fun m => m.role.tag)) ∧
    ((∃ m ∈ ms, m.role = Role.system) →
      (anthropicMessages ms).length < ms.length ∧
      (orInitialMessages sys ms).length = ms.length + 1) := by
  refine ⟨?_, ?_, fun h => ⟨?_, ?_⟩⟩
  · rw [List.filter_map (fun m => m.role) ms]
    simp only [anthropicMessages, List.map_map]
    exact List.map_congr_left fun m _ => rfl
  · simp [orInitialMessages, ORMessage.roleTag]
  · have : (ms.filter (fun m => !(m.role == Role.system))).length < ms.length := by
      rw [List.length_filter_lt_length_iff_exists]
      obtain ⟨m, hm, hr⟩ := h
      exact ⟨m, hm, by simp [hr]⟩
    simpa [anthropicMessages] using this
  · simp [orInitialMessages]

/-- C9 witness: a three-turn history with a system-role message in the middle;
the native request drops it (2 entries) while the chat-completions request
keeps all three after the prepended system message (4 entries). -/
theorem provider_history_role_divergence_witness :
    (anthropicMessages
        [⟨.user, "hi", none⟩, ⟨.system, "sys-note", none⟩, ⟨.assistant, "ok", none⟩]).length
      < 3 ∧
    (orInitialMessages "S"
        [⟨.user, "hi", none⟩, ⟨.system, "sys-note", none⟩, ⟨.assistant, "ok", none⟩]).length
      = 3 + 1 :=
  (provider_history_role_divergence "S"
      [⟨.user, "hi", none⟩, ⟨.system, "sys-note", none⟩, ⟨.assistant, "ok", none⟩]).2.2
    ⟨⟨.system, "sys-note", none⟩, by decide, rfl⟩

/-- Catalog phase, cached-snapshot hit: no refresh is attempted and the found
entry is auto-registered. -/
theorem switchCatalogPhase_cache_hit (cr : Option ORModelCache) (s : String)
    (db : List ModelConfig) (cache : ORModelCache) (e : ORCatalogModel)
    (hf : cache.models.find? (fun x => jsToLower x.id == jsToLower s) = some e) :
    switchCatalogPhase (some cache) cr s db
      = (some ⟨e.id, .openrouter, e.id, e.name.getD e.id, true⟩,
         db ++ [⟨e.id, .openrouter, e.id, e.name.getD e.id, true⟩],
         [.catalogGet, .createdModel ⟨e.id, .openrouter, e.id, e.name.getD e.id, true⟩]) := by
  simp only [switchCatalogPhase, hf, createModel]
  rfl

/-- Catalog phase, cached miss then refresh hit: both reads happen, then the
found entry is auto-registered. -/
theorem switchCatalogPhase_refresh_hit (cg : Option ORModelCache) (s : String)
    (db : List ModelConfig) (cache : ORModelCache) (e : ORCatalogModel)
    (hmiss : (cg.bind fun c => c.models.find? fun x => jsToLower x.id == jsToLower s) = none)
    (hf : cache.models.find? (fun x => jsToLower x.id == jsToLower s) = some e) :
    switchCatalogPhase cg (some cache) s db
      = (some ⟨e.id, .openrouter, e.id, e.name.getD e.id, true⟩,
         db ++ [⟨e.id, .openrouter, e.id, e.name.getD e.id, true⟩],
         [.catalogGet, .catalogRefresh,
          .createdModel ⟨e.id, .openrouter, e.id, e.name.getD e.id, true⟩]) := by
  cases cg with
  | none =>
    simp only [switchCatalogPhase, hf, createModel]
    rfl
  | some c =>
    rw [Option.some_bind] at hmiss
    simp only [switchCatalogPhase, hmiss, hf, createModel]
    rfl

/-- Catalog phase, total miss: both reads happen, nothing is registered, the
table is untouched. -/
theorem switchCatalogPhase_miss (cg cr : Option ORModelCache) (s : String)
    (db : List ModelConfig)
    (h6 : (cg.bind fun c => c.models.find? fun x => jsToLower x.id == jsToLower s) = none)
    (h7 : (cr.bind fun c => c.models.find? fun x => jsToLower x.id == jsToLower s) = none) :
    switchCatalogPhase cg cr s db = (none, db, [.catalogGet, .catalogRefresh]) := by
  cases cg with
  | none =>
    cases cr with
    | none => rfl
    | some c2 =>
      rw [Option.some_bind] at h7
      simp only [switchCatalogPhase, h7]
  | some c1 =>
    rw [Option.some_bind] at h6
    cases cr with
    | none => simp only [switchCatalogPhase, h6]
    | some c2 =>
      rw [Option.some_bind] at h7
      simp only [switchCatalogPhase, h6, h7]

/-- C5: when the requested identifier resolves to nothing — no exact alias
match, no concrete-provider-id match, no normalized match, and neither the
cached catalog snapshot nor a refresh knows it — `switch_model` returns the
error-flagged result listing every known alias id, the model table and the
user are unchanged (`preferredModel` is not mutated), and the only
collaborator calls made are the two catalog reads: no persistence call
(`updateUserModel`) and no registration (`createModel`) occurs. -/
theorem switch_model_not_found_unchanged (cg cr : Option ORModelCache)
    (input : Json) (db : List ModelConfig) (user : User) (s : String)
    (h1 : (switchModelRequestedId input).map jsTrim = some s) (h2 : s ≠ "")
    (ha : getModelByAlias db s = none) (hp : getModelByProviderId db s = none)
    (hn : normalizedResolve (getAvailableModels db) s = none)
    (h6 : (cg.bind fun c => c.models.find? fun x => jsToLower x.id == jsToLower s) = none)
    (h7 : (cr.bind fun c => c.models.find? fun x => jsToLower x.id == jsToLower s) = none) :
    switchModelHandler cg cr input db user
      = ⟨⟨jsObjRaw [("ok", "false"),
                   ("error", jsStr ("Model '" ++ s ++ "' not found")),
                   ("available_models",
                    jsArrRaw ((getAvailableModels db).map fun m => jsStr m.id))],
          some true⟩,
         db, user, [.catalogGet, .catalogRefresh]⟩ := by
  simp only [switchModelHandler, h1, ha, hp, hn, if_neg h2,
    switchCatalogPhase_miss cg cr s db h6 h7]
  rfl

/-- C5 witness: the spec's end-to-end scenario 3 — `"nonexistent-model-xyz"`
against a two-model table with an empty cached catalog and a throwing
refresh. -/
theorem switch_model_not_found_unchanged_witness :
    switchModelHandler (some ⟨"t", []⟩) none
        (.obj [("model", .str "nonexistent-model-xyz")])
        [⟨"gpt-4o", .openrouter, "openai/gpt-4o", "GPT-4o", true⟩,
         ⟨"claude-opus", .claude, "claude-opus-4-20250514", "Claude Opus 4", true⟩]
        ⟨"U1", "claude-opus"⟩
      = ⟨⟨jsObjRaw [("ok", "false"),
                   ("error", jsStr "Model 'nonexistent-model-xyz' not found"),
                   ("available_models",
                    jsArrRaw ((getAvailableModels
                        [⟨"gpt-4o", .openrouter, "openai/gpt-4o", "GPT-4o", true⟩,
                         ⟨"claude-opus", .claude, "claude-opus-4-20250514", "Claude Opus 4", true⟩]).map
                      fun m => jsStr m.id))],
          some true⟩,
         [⟨"gpt-4o", .openrouter, "openai/gpt-4o", "GPT-4o", true⟩,
          ⟨"claude-opus", .claude, "claude-opus-4-20250514", "Claude Opus 4", true⟩],
         ⟨"U1", "claude-opus"⟩, [.catalogGet, .catalogRefresh]⟩ :=
  switch_model_not_found_unchanged (some ⟨"t", []⟩) none
    (.obj [("model", .str "nonexistent-model-xyz")])
    [⟨"gpt-4o", .openrouter, "openai/gpt-4o", "GPT-4o", true⟩,
     ⟨"claude-opus", .claude, "claude-opus-4-20250514", "Claude Opus 4", true⟩]
    ⟨"U1", "claude-opus"⟩ "nonexistent-model-xyz"
    (by decide) (by decide) (by decide) (by decide) (by decide) (by decide) rfl

/-- C6: the `switch_model` resolution order.  Under a non-empty trimmed
request `s`: (1) an exact alias match wins outright with no catalog access;
(2) with no alias match, an exact concrete-provider-id match wins with no
catalog access; (3) with neither, a normalized (case/punctuation-insensitive)
alias-or-display-name match wins with no catalog access; (4) with no local
match, a cached-catalog hit is auto-registered as a new enabled openrouter
model without a refresh; (5) on a cached miss, a refresh hit is
auto-registered after both catalog reads.  (`finishSwitch` is the common
post-resolution tail; its fourth argument lists the side effects performed
before it runs — `[]` in cases 1-3 shows the catalog is never consulted.) -/
theorem switch_model_resolution_order (cg cr : Option ORModelCache)
    (input : Json) (db : List ModelConfig) (user : User) (s : String)
    (h1 : (switchModelRequestedId input).map jsTrim = some s) (h2 : s ≠ "") :
    (∀ m, getModelByAlias db s = some m →
      switchModelHandler cg cr input db user
        = finishSwitch (getAvailableModels db) s db user [] (some m)) ∧
    (∀ m, getModelByAlias db s = none → getModelByProviderId db s = some m →
      switchModelHandler cg cr input db user
        = finishSwitch (getAvailableModels db) s db user [] (some m)) ∧
    (∀ m, getModelByAlias db s = none → getModelByProviderId db s = none →
      normalizedResolve (getAvailableModels db) s = some m →
      switchModelHandler cg cr input db user
        = finishSwitch (getAvailableModels db) s db user [] (some m)) ∧
    (∀ cache e, getModelByAlias db s = none → getModelByProviderId db s = none →
      normalizedResolve (getAvailableModels db) s = none →
      cg = some cache →
      cache.models.find? (fun x => jsToLower x.id == jsToLower s) = some e →
      switchModelHandler cg cr input db user
        = finishSwitch (getAvailableModels db) s
            (db ++ [⟨e.id, .openrouter, e.id, e.name.getD e.id, true⟩]) user
            [.catalogGet, .createdModel ⟨e.id, .openrouter, e.id, e.name.getD e.id, true⟩]
            (some ⟨e.id, .openrouter, e.id, e.name.getD e.id, true⟩)) ∧
    (∀ cache e, getModelByAlias db s = none → getModelByProviderId db s = none →
      normalizedResolve (getAvailableModels db) s = none →
      (cg.bind fun c => c.models.find? fun x => jsToLower x.id == jsToLower s) = none →
      cr = some cache →
      cache.models.find? (fun x => jsToLower x.id == jsToLower s) = some e →
      switchModelHandler cg cr input db user
        = finishSwitch (getAvailableModels db) s
            (db ++ [⟨e.id, .openrouter, e.id, e.name.getD e.id, true⟩]) user
            [.catalogGet, .catalogRefresh,
             .createdModel ⟨e.id, .openrouter, e.id, e.name.getD e.id, true⟩]
            (some ⟨e.id, .openrouter, e.id, e.name.getD e.id, true⟩)) := by
  refine ⟨fun m hm => ?_, fun m ha hm => ?_, fun m ha hp hm => ?_,
    fun cache e ha hp hn hcg hf => ?_, fun cache e ha hp hn hmiss hcr hf => ?_⟩
  · simp only [switchModelHandler, h1, hm, if_neg h2]
  · simp only [switchModelHandler, h1, ha, hm, if_neg h2]
  · simp only [switchModelHandler, h1, ha, hp, hm, if_neg h2]
  · subst hcg
    simp only [switchModelHandler, h1, ha, hp, hn, if_neg h2,
      switchCatalogPhase_cache_hit cr s db cache e hf]
  · subst hcr
    simp only [switchModelHandler, h1, ha, hp, hn, if_neg h2,
      switchCatalogPhase_refresh_hit cg s db cache e hmiss hf]

/-- C6 witness: the spec's normalized-match scenario — request `"Foo"` when
the table holds a model with alias `"foo"`: exact alias and provider-id
lookups fail (BINARY collation is case-sensitive) but the normalized path
resolves it, so the handler equals the success tail on that model with no
catalog events. -/
theorem switch_model_resolution_order_witness :
    switchModelHandler none none (.str "Foo")
        [⟨"foo", .openrouter, "x/foo-1", "Foo Model", true⟩] ⟨"U1", "gpt-4o"⟩
      = finishSwitch
          (getAvailableModels [⟨"foo", .openrouter, "x/foo-1", "Foo Model", true⟩])
          "Foo" [⟨"foo", .openrouter, "x/foo-1", "Foo Model", true⟩]
          ⟨"U1", "gpt-4o"⟩ []
          (some ⟨"foo", .openrouter, "x/foo-1", "Foo Model", true⟩) :=
  (switch_model_resolution_order none none (.str "Foo")
      [⟨"foo", .openrouter, "x/foo-1", "Foo Model", true⟩] ⟨"U1", "gpt-4o"⟩ "Foo"
      (by decide) (by decide)).2.2.1
    ⟨"foo", .openrouter, "x/foo-1", "Foo Model", true⟩
    (by decide) (by decide) (by decide)

/-- Prepending already-accumulated messages commutes with batch processing:
the batch appends its tool messages after whatever is already in the list, and
the emitted events do not depend on the accumulated messages. -/
theorem processORToolCalls_append (parse : String → Except String Json)
    (exec : String → Json → ToolResult) :
    ∀ (calls : List ORToolCall) (pre msgs : List ORMessage),
      processORToolCalls parse exec calls (pre ++ msgs)
        = (pre ++ (processORToolCalls parse exec calls msgs).1,
           (processORToolCalls parse exec calls msgs).2) := by
  intro calls
  induction calls with
  | nil => intro pre msgs; rfl
  | cons c rest ih =>
    intro pre msgs
    cases h : orParsedArgs parse c.arguments with
    | error e =>
      simp only [processORToolCalls, h]
      rw [List.append_assoc]
      exact ih pre (msgs ++ [.toolMsg c.id (jsErrContent e)])
    | ok args =>
      simp only [processORToolCalls, h, List.append_assoc, ih]

/-- C7: a tool call whose arguments string is malformed JSON does not abort
the batch — processing of `pre ++ bad :: post` equals processing `pre`, then
appending the error tool message carrying the parse failure for `bad`'s call
id, then processing `post` exactly as it would have been processed anyway
(same messages, same events); and the error tool message correlated to
`bad.id` is present in the final message list.  The batch processor is a total
function, so the loop iteration it belongs to always completes. -/
theorem malformed_args_do_not_abort_batch (parse : String → Except String Json)
    (exec : String → Json → ToolResult) (pre post : List ORToolCall)
    (bad : ORToolCall) (msgs : List ORMessage) (e : String)
    (hne : bad.arguments ≠ "") (hparse : parse bad.arguments = .error e) :
    (processORToolCalls parse exec (pre ++ bad :: post) msgs
      = ((processORToolCalls parse exec post
            ((processORToolCalls parse exec pre msgs).1
              ++ [.toolMsg bad.id (jsErrContent e)])).1,
         (processORToolCalls parse exec pre msgs).2
           ++ (processORToolCalls parse exec post
                ((processORToolCalls parse exec pre msgs).1
                  ++ [.toolMsg bad.id (jsErrContent e)])).2))
    ∧ ORMessage.toolMsg bad.id (jsErrContent e)
        ∈ (processORToolCalls parse exec (pre ++ bad :: post) msgs).1 := by
  have hb : orParsedArgs parse bad.arguments = .error e := by
    simp only [orParsedArgs, if_neg hne, hparse]
  have key : ∀ (p : List ORToolCall) (ms : List ORMessage),
      processORToolCalls parse exec (p ++ bad :: post) ms
        = ((processORToolCalls parse exec post
              ((processORToolCalls parse exec p ms).1
                ++ [.toolMsg bad.id (jsErrContent e)])).1,
           (processORToolCalls parse exec p ms).2
             ++ (processORToolCalls parse exec post
                  ((processORToolCalls parse exec p ms).1
                    ++ [.toolMsg bad.id (jsErrContent e)])).2) := by
    intro p
    induction p with
    | nil =>
      intro ms
      simp only [List.nil_append, processORToolCalls, hb]
    | cons c rest ih =>
      intro ms
      cases h : orParsedArgs parse c.arguments with
      | error e2 =>
        simp only [List.cons_append, processORToolCalls, h]
        exact ih (ms ++ [.toolMsg c.id (jsErrContent e2)])
      | ok args =>
        simp only [List.cons_append, processORToolCalls, h, List.append_eq, ih]
  refine ⟨key pre msgs, ?_⟩
  rw [key pre msgs]
  have h2 := processORToolCalls_append parse exec post
    ((processORToolCalls parse exec pre msgs).1 ++ [.toolMsg bad.id (jsErrContent e)]) []
  rw [List.append_nil] at h2
  simp only [h2]
  simp

/-- C7 witness: a three-call batch whose middle call has unparseable
arguments — the batch splits around the synthesized error message and the
error message for call id `c2` is in the output. -/
theorem malformed_args_do_not_abort_batch_witness :
    (processORToolCalls
        (fun s => if s == "not-json" then .error "Unexpected token" else .ok (.obj []))
        (fun n _ => ⟨"ok:" ++ n, none⟩)
        ([⟨"c1", "list_models", ""⟩] ++ ⟨"c2", "foo", "not-json"⟩ :: [⟨"c3", "bar", ""⟩]) []
      = ((processORToolCalls
            (fun s => if s == "not-json" then .error "Unexpected token" else .ok (.obj []))
            (fun n _ => ⟨"ok:" ++ n, none⟩) [⟨"c3", "bar", ""⟩]
            ((processORToolCalls
                (fun s => if s == "not-json" then .error "Unexpected token" else .ok (.obj []))
                (fun n _ => ⟨"ok:" ++ n, none⟩) [⟨"c1", "list_models", ""⟩] []).1
              ++ [.toolMsg "c2" (jsErrContent "Unexpected token")])).1,
         (processORToolCalls
            (fun s => if s == "not-json" then .error "Unexpected token" else .ok (.obj []))
            (fun n _ => ⟨"ok:" ++ n, none⟩) [⟨"c1", "list_models", ""⟩] []).2
           ++ (processORToolCalls
                (fun s => if s == "not-json" then .error "Unexpected token" else .ok (.obj []))
                (fun n _ => ⟨"ok:" ++ n, none⟩) [⟨"c3", "bar", ""⟩]
                ((processORToolCalls
                    (fun s => if s == "not-json" then .error "Unexpected token" else .ok (.obj []))
                    (fun n _ => ⟨"ok:" ++ n, none⟩) [⟨"c1", "list_models", ""⟩] []).1
                  ++ [.toolMsg "c2" (jsErrContent "Unexpected token")])).2))
    ∧ ORMessage.toolMsg "c2" (jsErrContent "Unexpected token")
        ∈ (processORToolCalls
            (fun s => if s == "not-json" then .error "Unexpected token" else .ok (.obj []))
            (fun n _ => ⟨"ok:" ++ n, none⟩)
            ([⟨"c1", "list_models", ""⟩] ++ ⟨"c2", "foo", "not-json"⟩ :: [⟨"c3", "bar", ""⟩]) []).1 :=
  malformed_args_do_not_abort_batch
    (fun s => if s == "not-json" then .error "Unexpected token" else .ok (.obj []))
    (fun n _ => ⟨"ok:" ++ n, none⟩) [⟨"c1", "list_models", ""⟩] [⟨"c3", "bar", ""⟩]
    ⟨"c2", "foo", "not-json"⟩ [] "Unexpected token" (by decide) rfl

/-- C10: a tool call whose (non-empty) arguments string fails JSON parsing is
answered without the registry ever being reached: the batch trace contains no
`executeTool` invocation event for that call id (assuming call ids are unique
within the batch, which the provider contract guarantees).  Since the
`onToolResult` callback only ever fires inside `executeTool`
(`executeTool_callback_iff_success`), no handler runs and no callback fires
for that call. -/
theorem malformed_args_never_reach_executeTool (parse : String → Except String Json)
    (exec : String → Json → ToolResult) (calls : List ORToolCall)
    (msgs : List ORMessage) (bad : ORToolCall) (e : String)
    (_hmem : bad ∈ calls) (hne : bad.arguments ≠ "")
    (hparse : parse bad.arguments = .error e)
    (huniq : ∀ c ∈ calls, c.id = bad.id → c = bad) :
    (processORToolCalls parse exec calls msgs).2.filter (eventUsesCallId bad.id)
      = [] := by
  have hb : ∀ c ∈ calls, c.id = bad.id →
      exceptIsError (orParsedArgs parse c.arguments) = true := by
    intro c hc hid
    rw [huniq c hc hid]
    simp only [orParsedArgs, if_neg hne, hparse, exceptIsError]
  clear _hmem huniq
  induction calls generalizing msgs with
  | nil => rfl
  | cons c rest ih =>
    have hbrest : ∀ x ∈ rest, x.id = bad.id →
        exceptIsError (orParsedArgs parse x.arguments) = true := by
      intro x hx hid
      exact hb x (List.mem_cons_of_mem c hx) hid
    cases h : orParsedArgs parse c.arguments with
    | error e2 =>
      simp only [processORToolCalls, h]
      exact ih (msgs ++ [.toolMsg c.id (jsErrContent e2)]) hbrest
    | ok args =>
      have hcid : (c.id == bad.id) = false := by
        cases hdec : (c.id == bad.id) with
        | false => rfl
        | true =>
          have := hb c (List.mem_cons_self c rest) (by exact eq_of_beq hdec)
          rw [h] at this
          simp [exceptIsError] at this
      simp only [processORToolCalls, h, List.filter_cons, eventUsesCallId, hcid]
      exact ih (msgs ++ [.toolMsg c.id (exec c.name args).content]) hbrest

/-- C10 witness: in a batch of two calls where call `c2`'s arguments are
malformed, the event trace carries no `executeTool` event for `c2`. -/
theorem malformed_args_never_reach_executeTool_witness :
    (processORToolCalls
        (fun s => if s == "not-json" then .error "Unexpected token" else .ok (.obj []))
        (fun n _ => ⟨"ok:" ++ n, none⟩)
        [⟨"c1", "list_models", ""⟩, ⟨"c2", "foo", "not-json"⟩] []).2.filter
      (eventUsesCallId "c2") = [] :=
  malformed_args_never_reach_executeTool
    (fun s => if s == "not-json" then .error "Unexpected token" else .ok (.obj []))
    (fun n _ => ⟨"ok:" ++ n, none⟩)
    [⟨"c1", "list_models", ""⟩, ⟨"c2", "foo", "not-json"⟩] []
    ⟨"c2", "foo", "not-json"⟩ "Unexpected token"
    (by decide) (by decide) rfl (by decide)

/-- Token totals of the chat-completions loop: whatever the loop returns
carries the initial accumulators plus the reported usage of exactly the
responses it consumed, and it never consumes more than its fuel. -/
theorem orLoop_token_sums (parse : String → Except String Json)
    (exec : String → Json → ToolResult) (hasCtx : Bool) (modelId : String) :
    ∀ (fuel : Nat) (rs : List ORResponse) (msgs : List ORMessage)
      (a b : Nat) (out : ORLoopOut),
      orLoop parse exec hasCtx modelId fuel rs msgs a b = some out →
      out.resp.inputTokens
          = a + (((rs.take out.fetches).map ORResponse.reportedIn).sum) ∧
      out.resp.outputTokens
          = b + (((rs.take out.fetches).map ORResponse.reportedOut).sum) ∧
      out.fetches ≤ fuel := by
  intro fuel
  induction fuel with
  | zero =>
    intro rs msgs a b out h
    simp only [orLoop, Option.some.injEq] at h
    subst h
    simp
  | succ fuel ih =>
    intro rs msgs a b out h
    cases rs with
    | nil =>
      simp only [orLoop] at h
      exact Option.noConfusion h
    | cons r rest =>
      simp only [orLoop] at h
      by_cases hc : (r.toolCallList.isEmpty || !hasCtx) = true
      · rw [if_pos hc] at h
        simp only [Option.some.injEq] at h
        subst h
        simp
      · rw [if_neg hc] at h
        cases hrec : orLoop parse exec hasCtx modelId fuel rest
            ((msgs ++ [ORMessage.assistant (r.message.bind ORChoiceMsg.content) r.toolCallList])
              |> (processORToolCalls parse exec r.toolCallList)).1
            (a + r.reportedIn) (b + r.reportedOut) with
        | none => rw [hrec] at h; exact absurd h (by simp)
        | some out2 =>
          rw [hrec] at h
          simp only [Option.some.injEq] at h
          subst h
          obtain ⟨h1, h2, h3⟩ := ih rest _ (a + r.reportedIn) (b + r.reportedOut) out2 hrec
          refine ⟨?_, ?_, ?_⟩
          · simpa [List.take_succ_cons, Nat.add_assoc] using h1
          · simpa [List.take_succ_cons, Nat.add_assoc] using h2
          · simpa using Nat.succ_le_succ h3

/-- Token totals of the native-messages loop, relative to the usage already
accumulated for the current response. -/
theorem claudeLoop_token_sums (exec : String → Json → ToolResult) (hasCtx : Bool) :
    ∀ (fuel : Nat) (r : ClaudeResponse) (rest : List ClaudeResponse)
      (msgs : List CMessage) (a b : Nat) (out : CLoopOut),
      claudeLoop exec hasCtx fuel r rest msgs a b = some out →
      out.resp.inputTokens
          = a + (((rest.take out.fetches).map fun x => x.usage.inputTokens).sum) ∧
      out.resp.outputTokens
          = b + (((rest.take out.fetches).map fun x => x.usage.outputTokens).sum) ∧
      out.fetches ≤ fuel := by
  intro fuel
  induction fuel with
  | zero =>
    intro r rest msgs a b out h
    simp only [claudeLoop, Option.some.injEq] at h
    subst h
    simp
  | succ fuel ih =>
    intro r rest msgs a b out h
    simp only [claudeLoop] at h
    by_cases hc : ((claudeToolUses r.content).isEmpty || !hasCtx) = true
    · rw [if_pos hc] at h
      simp only [Option.some.injEq] at h
      subst h
      simp
    · rw [if_neg hc] at h
      cases rest with
      | nil => exact Option.noConfusion h
      | cons r2 rest2 =>
        dsimp only at h
        cases hrec : claudeLoop exec hasCtx fuel r2 rest2
            (msgs ++ [CMessage.assistantEcho r.content,
              CMessage.toolResults ((claudeToolUses r.content).map fun u =>
                ToolResultBlock.mk u.id (exec u.name u.input).content
                  (exec u.name u.input).isError)])
            (a + r2.usage.inputTokens) (b + r2.usage.outputTokens) with
        | none => rw [hrec] at h; exact Option.noConfusion h
        | some out2 =>
          rw [hrec] at h
          simp only [Option.some.injEq] at h
          subst h
          obtain ⟨h1, h2, h3⟩ := ih r2 rest2 _ _ _ out2 hrec
          refine ⟨?_, ?_, ?_⟩
          · simpa [List.take_succ_cons, Nat.add_assoc] using h1
          · simpa [List.take_succ_cons, Nat.add_assoc] using h2
          · simpa using Nat.succ_le_succ h3

/-- A chat-completions loop entered with positive fuel makes at least one
inference call. -/
theorem orLoop_fetches_pos (parse : String → Except String Json)
    (exec : String → Json → ToolResult) (hasCtx : Bool) (modelId : String)
    (fuel : Nat) (rs : List ORResponse) (msgs : List ORMessage)
    (a b : Nat) (out : ORLoopOut)
    (h : orLoop parse exec hasCtx modelId (fuel + 1) rs msgs a b = some out) :
    1 ≤ out.fetches := by
  cases rs with
  | nil =>
    simp only [orLoop] at h
    exact Option.noConfusion h
  | cons r rest =>
    simp only [orLoop] at h
    by_cases hc : (r.toolCallList.isEmpty || !hasCtx) = true
    · rw [if_pos hc] at h
      simp only [Option.some.injEq] at h
      subst h
      exact Nat.le_refl 1
    · rw [if_neg hc] at h
      cases hrec : orLoop parse exec hasCtx modelId fuel rest
          (processORToolCalls parse exec r.toolCallList
            (msgs ++ [ORMessage.assistant (r.message.bind ORChoiceMsg.content) r.toolCallList])).1
          (a + r.reportedIn) (b + r.reportedOut) with
      | none => rw [hrec] at h; exact Option.noConfusion h
      | some out2 =>
        rw [hrec] at h
        simp only [Option.some.injEq] at h
        subst h
        exact Nat.succ_le_succ (Nat.zero_le _)

/-- C2: token accounting is additive in both provider families.  A
chat-completions run returning a result performed `N = fetches` inference
calls with `1 ≤ N ≤ 3`, and its final `inputTokens`/`outputTokens` are the
sums of the per-call reported usage (`prompt_tokens`/`completion_tokens`,
missing usage read as 0 by `|| 0`) over exactly those `N` responses, starting
from zero — accumulated across iterations and never reset.  A native-messages
run likewise performed `N = fetches` calls with `1 ≤ N ≤ 4` and its totals are
the sums of `input_tokens`/`output_tokens` over those `N` responses. -/
theorem token_accounting_additive (parse : String → Except String Json)
    (exec : String → Json → ToolResult) (hasCtx : Bool) (modelId sys : String)
    (messages : List Message) (orRs : List ORResponse) (cRs : List ClaudeResponse)
    (orOut : ORLoopOut) (cOut : CLoopOut) :
    (generateOpenRouterResponseRun parse exec hasCtx modelId sys messages orRs
        = some orOut →
      orOut.resp.inputTokens
          = ((orRs.take orOut.fetches).map ORResponse.reportedIn).sum ∧
      orOut.resp.outputTokens
          = ((orRs.take orOut.fetches).map ORResponse.reportedOut).sum ∧
      1 ≤ orOut.fetches ∧ orOut.fetches ≤ 3) ∧
    (generateClaudeResponseRun exec hasCtx messages cRs = some cOut →
      cOut.resp.inputTokens
          = ((cRs.take cOut.fetches).map fun x => x.usage.inputTokens).sum ∧
      cOut.resp.outputTokens
          = ((cRs.take cOut.fetches).map fun x => x.usage.outputTokens).sum ∧
      1 ≤ cOut.fetches ∧ cOut.fetches ≤ 4) := by
  constructor
  · intro h
    obtain ⟨h1, h2, h3⟩ := orLoop_token_sums parse exec hasCtx modelId 3 orRs
      (orInitialMessages sys messages) 0 0 orOut h
    exact ⟨by simpa using h1, by simpa using h2,
      orLoop_fetches_pos parse exec hasCtx modelId 2 orRs
        (orInitialMessages sys messages) 0 0 orOut h, h3⟩
  · intro h
    cases cRs with
    | nil =>
      simp only [generateClaudeResponseRun] at h
      exact Option.noConfusion h
    | cons r rest =>
      simp only [generateClaudeResponseRun] at h
      cases hrec : claudeLoop exec hasCtx 3 r rest (anthropicMessages messages)
          r.usage.inputTokens r.usage.outputTokens with
      | none => rw [hrec] at h; exact Option.noConfusion h
      | some out =>
        rw [hrec] at h
        simp only [Option.some.injEq] at h
        subst h
        obtain ⟨h1, h2, h3⟩ := claudeLoop_token_sums exec hasCtx 3 r rest
          (anthropicMessages messages) r.usage.inputTokens r.usage.outputTokens out hrec
        refine ⟨?_, ?_, Nat.succ_le_succ (Nat.zero_le _), Nat.succ_le_succ h3⟩
        · simpa [List.take_succ_cons] using h1
        · simpa [List.take_succ_cons] using h2

/-- C2 witness: the repository test-suite scenarios — a chat-completions run
making 2 inference calls totalling 10+8 input / 5+6 output tokens, and a
native-messages run making 2 calls totalling 10+12 / 5+6. -/
theorem token_accounting_additive_witness :
    (wOrOut.resp.inputTokens
        = ((wOrScript.take wOrOut.fetches).map ORResponse.reportedIn).sum ∧
      wOrOut.resp.outputTokens
        = ((wOrScript.take wOrOut.fetches).map ORResponse.reportedOut).sum ∧
      1 ≤ wOrOut.fetches ∧ wOrOut.fetches ≤ 3) ∧
    (wCOut.resp.inputTokens
        = ((wCScript.take wCOut.fetches).map fun x => x.usage.inputTokens).sum ∧
      wCOut.resp.outputTokens
        = ((wCScript.take wCOut.fetches).map fun x => x.usage.outputTokens).sum ∧
      1 ≤ wCOut.fetches ∧ wCOut.fetches ≤ 4) :=
  ⟨(token_accounting_additive (fun _ => .ok (.obj [])) (fun _ _ => ⟨"res", none⟩)
      true "openrouter/test" "sys" [] wOrScript wCScript wOrOut wCOut).1 rfl,
   (token_accounting_additive (fun _ => .ok (.obj [])) (fun _ _ => ⟨"res", none⟩)
      true "openrouter/test" "sys" [] wOrScript wCScript wOrOut wCOut).2 rfl⟩

/-- Exhaustion of the chat-completions loop: if the first `f` scripted
responses all carry tool calls and the context is present, the loop runs
exactly `f` tool-execution rounds, makes `f` inference calls, and exits with
the fixed fallback content and the requested model id echoed. -/
theorem orLoop_exhaust (parse : String → Except String Json)
    (exec : String → Json → ToolResult) (modelId : String) :
    ∀ (f : Nat) (rs : List ORResponse) (msgs : List ORMessage) (a b : Nat),
      f ≤ rs.length → (∀ r ∈ rs.take f, r.toolCallList ≠ []) →
      ∃ out, orLoop parse exec true modelId f rs msgs a b = some out ∧
        out.resp.content = "Sorry, I ran into a tool loop while responding." ∧
        out.resp.model = modelId ∧ out.fetches = f ∧ out.rounds = f := by
  intro f
  induction f with
  | zero =>
    intro rs msgs a b _ _
    exact ⟨⟨⟨"Sorry, I ran into a tool loop while responding.", modelId, a, b⟩,
      msgs, [], 0, 0⟩, rfl, rfl, rfl, rfl, rfl⟩
  | succ f ih =>
    intro rs msgs a b hlen htc
    cases rs with
    | nil => simp at hlen
    | cons r rest =>
      have hr : r.toolCallList ≠ [] :=
        htc r (by simp [List.take_succ_cons])
      have hcond : (r.toolCallList.isEmpty || !true) = false := by
        simp [List.isEmpty_iff]
        exact hr
      obtain ⟨out2, hrec, h1, h2, h3, h4⟩ := ih rest
        (processORToolCalls parse exec r.toolCallList
          (msgs ++ [ORMessage.assistant (r.message.bind ORChoiceMsg.content) r.toolCallList])).1
        (a + r.reportedIn) (b + r.reportedOut)
        (by simpa using Nat.le_of_succ_le_succ hlen)
        (fun x hx => htc x (by simp [List.take_succ_cons]; right; exact hx))
      refine ⟨⟨out2.resp, out2.msgs,
        .fetch :: (processORToolCalls parse exec r.toolCallList
          (msgs ++ [ORMessage.assistant (r.message.bind ORChoiceMsg.content) r.toolCallList])).2
          ++ out2.trace,
        out2.fetches + 1, out2.rounds + 1⟩, ?_, h1, h2, by simp [h3], by simp [h4]⟩
      simp only [orLoop, hcond, Bool.false_eq_true, if_false, hrec]

/-- Exhaustion of the native-messages loop: if the current response and every
response consumed during the rounds carry tool uses, the loop runs exactly
`f` rounds, fetches `f` more responses, and exits returning the plain text of
the last fetched response. -/
theorem claudeLoop_exhaust (exec : String → Json → ToolResult) :
    ∀ (f : Nat) (r : ClaudeResponse) (rest : List ClaudeResponse)
      (msgs : List CMessage) (a b : Nat),
      f ≤ rest.length →
      (∀ x ∈ (r :: rest).take f, claudeToolUses x.content ≠ []) →
      ∃ out, claudeLoop exec true f r rest msgs a b = some out ∧
        out.resp.content = claudeTextOf (((r :: rest).getD f cDefaultResp).content) ∧
        out.resp.model = ((r :: rest).getD f cDefaultResp).model ∧
        out.fetches = f ∧ out.rounds = f := by
  intro f
  induction f with
  | zero =>
    intro r rest msgs a b _ _
    exact ⟨⟨⟨claudeTextOf r.content, r.model, a, b⟩, msgs, [], 0, 0⟩,
      rfl, rfl, rfl, rfl, rfl⟩
  | succ f ih =>
    intro r rest msgs a b hlen htc
    have hr : claudeToolUses r.content ≠ [] :=
      htc r (by simp [List.take_succ_cons])
    have hcond : ((claudeToolUses r.content).isEmpty || !true) = false := by
      simp [List.isEmpty_iff]
      exact hr
    cases rest with
    | nil => simp at hlen
    | cons r2 rest2 =>
      obtain ⟨out2, hrec, h1, h2, h3, h4⟩ := ih r2 rest2
        (msgs ++ [CMessage.assistantEcho r.content,
          CMessage.toolResults ((claudeToolUses r.content).map fun u =>
            ToolResultBlock.mk u.id (exec u.name u.input).content
              (exec u.name u.input).isError)])
        (a + r2.usage.inputTokens) (b + r2.usage.outputTokens)
        (by simpa using Nat.le_of_succ_le_succ hlen)
        (fun x hx => htc x (by simp [List.take_succ_cons] at hx ⊢; tauto))
      refine ⟨⟨out2.resp, out2.msgs,
        ((claudeToolUses r.content).map fun u => LoopEvent.execTool u.id u.name u.input)
          ++ .fetch :: out2.trace,
        out2.fetches + 1, out2.rounds + 1⟩, ?_, ?_, ?_, by simp [h3], by simp [h4]⟩
      · simp only [claudeLoop, hcond, Bool.false_eq_true, if_false]
        rw [hrec]
      · simpa using h1
      · simpa using h2

/-- C1 counterexample: a native-messages run whose four scripted responses all
carry a tool use terminates after exactly 3 tool rounds but returns
`"working"` — the plain text of the last response, with no occurrence of the
fixed fallback message (`"ran into a tool loop"`) at all; the claim that the
returned content is the fixed fallback paired with the last text is false for
this provider family (and the chat-completions family returns the fixed
message *without* the last text). -/
theorem claude_exhaustion_no_fallback_cex :
    (generateClaudeResponseRun (fun _ _ => ⟨"res", none⟩) true []
        [⟨"m", [.toolUse "t1" "list_models" (.obj [])], ⟨1, 1⟩⟩,
         ⟨"m", [.toolUse "t2" "list_models" (.obj [])], ⟨1, 1⟩⟩,
         ⟨"m", [.toolUse "t3" "list_models" (.obj [])], ⟨1, 1⟩⟩,
         ⟨"m", [.toolUse "t4" "list_models" (.obj []), .text "working"], ⟨1, 1⟩⟩]).map
        (fun o => (o.resp.content, o.rounds, o.fetches))
      = some ("working", 3, 4)
    ∧ ¬ List.IsInfix "ran into a tool loop".toList "working".toList := by
  constructor
  · rfl
  · decide

/-- C1 amended: with a `ToolContext` supplied and every scripted response
carrying at least one tool call, both drivers terminate normally (no raise)
after exactly 3 tool-execution rounds — a 4th round never runs.  The
chat-completions driver makes 3 inference calls and returns the fixed
fallback message alone (no text from the last response) with the requested
model id and the accumulated token totals; the native-messages driver makes 4
inference calls (the initial one plus one per round) and returns the plain
text of the last response alone (no fallback message) with its reported model
id and the accumulated totals. -/
theorem loop_exhaustion_terminates (parse : String → Except String Json)
    (exec : String → Json → ToolResult) (modelId sys : String)
    (messages : List Message) (orRs : List ORResponse) (cRs : List ClaudeResponse)
    (hor1 : 3 ≤ orRs.length) (hor2 : ∀ r ∈ orRs.take 3, r.toolCallList ≠ [])
    (hc1 : 4 ≤ cRs.length) (hc2 : ∀ x ∈ cRs.take 3, claudeToolUses x.content ≠ []) :
    ((generateOpenRouterResponseRun parse exec true modelId sys messages orRs).map
        (fun o => (o.resp.content, o.resp.model, o.resp.inputTokens,
                   o.resp.outputTokens, o.fetches, o.rounds))
      = some ("Sorry, I ran into a tool loop while responding.", modelId,
              ((orRs.take 3).map ORResponse.reportedIn).sum,
              ((orRs.take 3).map ORResponse.reportedOut).sum, 3, 3)) ∧
    ((generateClaudeResponseRun exec true messages cRs).map
        (fun o => (o.resp.content, o.resp.model, o.resp.inputTokens,
                   o.resp.outputTokens, o.fetches, o.rounds))
      = some (claudeTextOf ((cRs.getD 3 cDefaultResp).content),
              (cRs.getD 3 cDefaultResp).model,
              ((cRs.take 4).map fun x => x.usage.inputTokens).sum,
              ((cRs.take 4).map fun x => x.usage.outputTokens).sum, 4, 3)) := by
  constructor
  · obtain ⟨out, heq, hcont, hmod, hfet, hrnd⟩ :=
      orLoop_exhaust parse exec modelId 3 orRs (orInitialMessages sys messages)
        0 0 hor1 hor2
    obtain ⟨h1, h2, _⟩ := orLoop_token_sums parse exec true modelId 3 orRs
      (orInitialMessages sys messages) 0 0 out heq
    rw [hfet] at h1 h2
    simp only [generateOpenRouterResponseRun]
    rw [heq]
    simp [hcont, hmod, hfet, hrnd, h1, h2]
  · cases cRs with
    | nil => simp at hc1
    | cons r rest =>
      obtain ⟨out, heq, hcont, hmod, hfet, hrnd⟩ :=
        claudeLoop_exhaust exec 3 r rest (anthropicMessages messages)
          r.usage.inputTokens r.usage.outputTokens
          (by simpa using Nat.le_of_succ_le_succ hc1) hc2
      obtain ⟨h1, h2, _⟩ := claudeLoop_token_sums exec true 3 r rest
        (anthropicMessages messages) r.usage.inputTokens r.usage.outputTokens out heq
      rw [hfet] at h1 h2
      simp only [generateClaudeResponseRun]
      rw [heq]
      simp [hcont, hmod, hfet, hrnd, h1, h2, List.take_succ_cons]

/-- C1 amended witness: concrete all-tool-call scripts — three tool-call
responses for the chat-completions driver (fixed fallback text, 3 rounds,
3 fetches, token sums 3/6) and four responses for the native-messages driver
(last text `"done"`, 3 rounds, 4 fetches, token sums 4/4). -/
theorem loop_exhaustion_terminates_witness :
    ((generateOpenRouterResponseRun (fun _ => .ok (.obj []))
        (fun _ _ => ⟨"res", none⟩) true "m" "sys" [] wOrExhaustScript).map
        (fun o => (o.resp.content, o.resp.model, o.resp.inputTokens,
                   o.resp.outputTokens, o.fetches, o.rounds))
      = some ("Sorry, I ran into a tool loop while responding.", "m",
              ((wOrExhaustScript.take 3).map ORResponse.reportedIn).sum,
              ((wOrExhaustScript.take 3).map ORResponse.reportedOut).sum, 3, 3)) ∧
    ((generateClaudeResponseRun (fun _ _ => ⟨"res", none⟩) true [] wCExhaustScript).map
        (fun o => (o.resp.content, o.resp.model, o.resp.inputTokens,
                   o.resp.outputTokens, o.fetches, o.rounds))
      = some (claudeTextOf ((wCExhaustScript.getD 3 cDefaultResp).content),
              (wCExhaustScript.getD 3 cDefaultResp).model,
              ((wCExhaustScript.take 4).map fun x => x.usage.inputTokens).sum,
              ((wCExhaustScript.take 4).map fun x => x.usage.outputTokens).sum,
              4, 3)) :=
  loop_exhaustion_terminates (fun _ => .ok (.obj [])) (fun _ _ => ⟨"res", none⟩)
    "m" "sys" [] wOrExhaustScript wCExhaustScript
    (by decide) (by decide) (by decide)
    (by
      have h : wCExhaustScript.take 3
          = [⟨"m", [.toolUse "t1" "list_models" (.obj [])], ⟨1, 1⟩⟩,
             ⟨"m", [.toolUse "t2" "list_models" (.obj [])], ⟨1, 1⟩⟩,
             ⟨"m", [.toolUse "t3" "list_models" (.obj [])], ⟨1, 1⟩⟩] := rfl
      rw [h]
      intro x hx
      rcases List.mem_cons.mp hx with rfl | hx
      · simp [claudeToolUses]
      rcases List.mem_cons.mp hx with rfl | hx
      · simp [claudeToolUses]
      rcases List.mem_cons.mp hx with rfl | hx
      · simp [claudeToolUses]
      · exact absurd hx (List.not_mem_nil x))

end Finn
